import Mathlib

/-
Verification development for the AI-voice-cashier repository.

The repository has two server variants: src/server.js (the voice variant,
with the multi-turn /api/conversation-turn endpoint) and src/unnamed/part_000
(an earlier variant with only the single-turn /api/process-order endpoint).
Both are shallowly embedded below.

Modelling conventions:
- JavaScript numbers are modelled by DecNum, an integer mantissa m with a
  decimal exponent e denoting the value m / 10^e.  All numeric comparisons
  the source performs (strict equality with 0, truthiness) depend only on
  whether the value is zero, which DecNum.isZero captures exactly.
  IEEE rounding, NaN propagation past parse time and Infinity are outside
  the model; parseFloatQ returns none where JavaScript returns NaN.
- JavaScript objects used as dictionaries (the menu, its sized entries) are
  modelled as association lists with unique keys: lookup finds the first
  match, insertion overwrites in place or appends.
- Strings are Lean strings; toLowerCase is modelled on ASCII letters via
  Char.toLower, trim via the JS whitespace test on both ends.
- The source files are ES modules, hence strict mode: writing a property on
  a number primitive (a sized menu row arriving after a flat entry for the
  same item) throws a TypeError.  buildMenu therefore returns an Option,
  none meaning the exception that the surrounding try/catch of getMenu
  catches.
-/

namespace VoiceCashier

/-- JavaScript whitespace test used by trim and parseFloat. -/
def jsIsWs (c : Char) : Bool :=
  c = ' ' || c = '\t' || c = '\n' || c = '\r' || c = '\x0b' || c = '\x0c'

/-- Model of String.prototype.toLowerCase restricted to ASCII letters. -/
def jsLower (s : String) : String :=
  ⟨s.data.map Char.toLower⟩

/-- Model of String.prototype.trim. -/
def jsTrim (s : String) : String :=
  ⟨((s.data.dropWhile jsIsWs).reverse.dropWhile jsIsWs).reverse⟩

def removeDollarAux : List Char → List Char
  | [] => []
  | c :: r => if c = '$' then r else c :: removeDollarAux r

/-- Model of price.replace applied to a single dollar sign: JavaScript
String.prototype.replace with a string pattern removes only the first
occurrence, anywhere in the string. -/
def removeFirstDollar (s : String) : String :=
  ⟨removeDollarAux s.data⟩

def digitVal (c : Char) : ℕ := c.toNat - ('0').toNat

def digitsToNat (l : List Char) : ℕ :=
  l.foldl (fun a c => 10 * a + digitVal c) 0

/-- A JavaScript number as an integer mantissa over a power-of-ten
denominator: the value denoted is m / 10^e. -/
structure DecNum where
  m : ℤ
  e : ℕ
deriving DecidableEq, Repr

/-- The denoted rational value of a DecNum. -/
def DecNum.val (d : DecNum) : ℚ := (d.m : ℚ) / (10 : ℚ) ^ d.e

/-- Zero test: the comparisons the source makes against numbers (strict
equality with 0, truthiness) depend only on this. -/
def DecNum.isZero (d : DecNum) : Bool := d.m = 0

/-- Exact addition of two decimal fractions. -/
def DecNum.add (a b : DecNum) : DecNum :=
  ⟨a.m * ((10 ^ b.e : ℕ) : ℤ) + b.m * ((10 ^ a.e : ℕ) : ℤ), a.e + b.e⟩

def decSign (neg : Bool) (n : ℕ) : ℤ :=
  if neg then -(n : ℤ) else (n : ℤ)

/-- Model of parseFloat: skip leading whitespace, optional sign, decimal
digits with an optional fraction part and an optional exponent part,
ignoring any trailing characters.  Returns none where JavaScript returns
NaN (no digits at all).  The Infinity literal is not modelled. -/
def parseFloatQ (s : String) : Option DecNum :=
  let l := s.data.dropWhile jsIsWs
  let signNeg : Bool := match l with
    | '-' :: _ => true
    | _ => false
  let l1 : List Char := match l with
    | '-' :: r => r
    | '+' :: r => r
    | _ => l
  let intD := l1.takeWhile Char.isDigit
  let l2 := l1.drop intD.length
  let fracD : List Char := match l2 with
    | '.' :: r => r.takeWhile Char.isDigit
    | _ => []
  let l3 : List Char := match l2 with
    | '.' :: r => r.drop (r.takeWhile Char.isDigit).length
    | _ => l2
  if intD.isEmpty && fracD.isEmpty then none
  else
    let base : DecNum := ⟨decSign signNeg (digitsToNat (intD ++ fracD)), fracD.length⟩
    let expPart : Option (Bool × ℕ) := match l3 with
      | 'e' :: r | 'E' :: r =>
        match r with
        | '-' :: r2 =>
          let d := r2.takeWhile Char.isDigit
          if d.isEmpty then none else some (true, digitsToNat d)
        | '+' :: r2 =>
          let d := r2.takeWhile Char.isDigit
          if d.isEmpty then none else some (false, digitsToNat d)
        | _ =>
          let d := r.takeWhile Char.isDigit
          if d.isEmpty then none else some (false, digitsToNat d)
      | _ => none
    some (match expPart with
      | none => base
      | some (true, n) => ⟨base.m, base.e + n⟩
      | some (false, n) => ⟨base.m * ((10 ^ n : ℕ) : ℤ), base.e⟩)

/-- Association-list lookup modelling JavaScript property read on an object
with unique keys. -/
def alookup {α : Type} : List (String × α) → String → Option α
  | [], _ => none
  | (k2, v) :: r, k => if k2 = k then some v else alookup r k

/-- Association-list write modelling JavaScript property assignment:
overwrite in place when the key exists, append otherwise. -/
def alistInsert {α : Type} : List (String × α) → String → α → List (String × α)
  | [], k, v => [(k, v)]
  | (k2, v2) :: r, k, v =>
    if k2 = k then (k, v) :: r else (k2, v2) :: alistInsert r k v

/-- Association-list delete modelling Map.prototype.delete. -/
def alistErase {α : Type} : List (String × α) → String → List (String × α)
  | [], _ => []
  | (k2, v2) :: r, k => if k2 = k then r else (k2, v2) :: alistErase r k

/-- A menu entry: either a single flat price or a map from size label to
price, exactly the two shapes getMenu builds. -/
inductive MenuEntry where
  | flat (price : DecNum)
  | sized (sizes : List (String × DecNum))
deriving DecidableEq, Repr

abbrev Menu := List (String × MenuEntry)

/-- JavaScript truthiness of a stored menu entry: a number is falsy exactly
when zero, an object is always truthy. -/
def menuEntryTruthy : MenuEntry → Bool
  | .flat p => !p.isZero
  | .sized _ => true

/-- One raw sheet row as getMenu destructures it.  The sheet has six
columns; only item, size and price are read, the rest are ignored by the
source, so only those three are modelled.  A missing cell destructures to
undefined, which behaves like the empty string in every test the source
performs, so missing cells are modelled as the empty string. -/
structure Row where
  item : String
  size : String
  price : String
deriving DecidableEq, Repr

/-- One iteration of the row loop of getMenu.  Returns none when the
iteration throws: in strict mode, writing a size property on an existing
flat (number) entry throws a TypeError. -/
def rowStep (menu : Menu) (r : Row) : Option Menu :=
  if r.item = "" ∨ r.price = "" then some menu
  else
    match parseFloatQ (removeFirstDollar r.price) with
    | none => some menu
    | some q =>
      if q.isZero then some menu
      else if jsTrim r.size = "" then
        some (alistInsert menu (jsTrim (jsLower r.item)) (.flat q))
      else
        match alookup menu (jsTrim (jsLower r.item)) with
        | none =>
          some (alistInsert menu (jsTrim (jsLower r.item))
            (.sized [(jsTrim (jsLower r.size), q)]))
        | some (.sized sm) =>
          some (alistInsert menu (jsTrim (jsLower r.item))
            (.sized (alistInsert sm (jsTrim (jsLower r.size)) q)))
        | some (.flat p) =>
          if p.isZero then
            some (alistInsert menu (jsTrim (jsLower r.item))
              (.sized [(jsTrim (jsLower r.size), q)]))
          else none

/-- The row loop of getMenu over the data rows (the header row has already
been dropped by the caller). -/
def buildMenu (rows : List Row) : Option Menu :=
  rows.foldlM rowStep []

/-- Outcome of the menu-source fetch: the full value rows of the sheet on
success (the first row is the header), or a thrown error. -/
inductive FetchOutcome where
  | success (rows : List Row)
  | failure

/-- getMenu of src/server.js: parse the fetched rows, and on any thrown
error (fetch failure or the strict-mode TypeError) return the empty
object. -/
def getMenu_server : FetchOutcome → Menu
  | .success rows => (buildMenu (rows.drop 1)).getD []
  | .failure => []

/-- The hardcoded fallback menu of src/unnamed/part_000. -/
def fallbackMenu : Menu :=
  [(("coffee"), .sized [(("small"), ⟨250, 2⟩), (("medium"), ⟨300, 2⟩), (("large"), ⟨350, 2⟩)]),
   (("latte"), .sized [(("small"), ⟨350, 2⟩), (("medium"), ⟨400, 2⟩), (("large"), ⟨450, 2⟩)])]

/-- getMenu of src/unnamed/part_000: same parsing, but any thrown error is
answered with the hardcoded fallback menu. -/
def getMenu_part000 : FetchOutcome → Menu
  | .success rows => (buildMenu (rows.drop 1)).getD fallbackMenu
  | .failure => fallbackMenu

/-- The two module-level cache variables of both variants. -/
structure MenuCacheState where
  cachedMenu : Option Menu
  lastMenuFetch : ℕ
deriving DecidableEq

/-- getCachedMenu, parameterised by the getMenu variant and the cache
duration constant.  Returns the menu handed to the caller, the new values
of the two cache variables, and whether an underlying fetch was issued.
A cached menu object is always truthy (even when empty), so the refresh
condition is: no snapshot yet, or age strictly above the duration. -/
def getCachedMenu (gm : FetchOutcome → Menu) (dur : ℕ) (st : MenuCacheState)
    (now : ℕ) (o : FetchOutcome) : Menu × MenuCacheState × Bool :=
  if st.cachedMenu.isNone || decide (now - st.lastMenuFetch > dur) then
    let m := gm o
    (m, ⟨some m, now⟩, true)
  else
    (st.cachedMenu.getD [], st, false)

/-- MENU_CACHE_DURATION of src/server.js: one hour in milliseconds. -/
def MENU_CACHE_DURATION_server : ℕ := 60 * 60 * 1000

/-- MENU_CACHE_DURATION of src/unnamed/part_000: five minutes. -/
def MENU_CACHE_DURATION_part000 : ℕ := 5 * 60 * 1000

/-- A JSON value as produced by JSON.parse.  Objects keep their fields in
source order; a later duplicate key wins on lookup, as in JavaScript. -/
inductive Json where
  | null
  | bool (b : Bool)
  | num (q : DecNum)
  | str (s : String)
  | arr (elts : List Json)
  | obj (fields : List (String × Json))

/-- JSON whitespace. -/
def jsonWs (c : Char) : Bool :=
  c = ' ' || c = '\t' || c = '\n' || c = '\r'

def skipWs (l : List Char) : List Char := l.dropWhile jsonWs

def hexVal (c : Char) : Option ℕ :=
  if c.isDigit then some (c.toNat - ('0').toNat)
  else if 'a' ≤ c && c ≤ 'f' then some (c.toNat - ('a').toNat + 10)
  else if 'A' ≤ c && c ≤ 'F' then some (c.toNat - ('A').toNat + 10)
  else none

/-- Body of a JSON string after the opening quote: returns the decoded
characters and the input remaining after the closing quote.  The escapes
of the JSON grammar are handled; a lone code unit from a surrogate escape
becomes the null character, and unpaired surrogates are not modelled. -/
def parseStrChars : List Char → Option (List Char × List Char)
  | [] => none
  | '"' :: rest => some ([], rest)
  | '\\' :: 'u' :: a :: b :: c :: d :: rest =>
    (match hexVal a, hexVal b, hexVal c, hexVal d with
     | some x, some y, some z, some w =>
       (parseStrChars rest).map (fun p =>
         (Char.ofNat (((x * 16 + y) * 16 + z) * 16 + w) :: p.1, p.2))
     | _, _, _, _ => none)
  | '\\' :: '"' :: rest => (parseStrChars rest).map (fun p => ('"' :: p.1, p.2))
  | '\\' :: '\\' :: rest => (parseStrChars rest).map (fun p => ('\\' :: p.1, p.2))
  | '\\' :: '/' :: rest => (parseStrChars rest).map (fun p => ('/' :: p.1, p.2))
  | '\\' :: 'n' :: rest => (parseStrChars rest).map (fun p => ('\n' :: p.1, p.2))
  | '\\' :: 't' :: rest => (parseStrChars rest).map (fun p => ('\t' :: p.1, p.2))
  | '\\' :: 'r' :: rest => (parseStrChars rest).map (fun p => ('\r' :: p.1, p.2))
  | '\\' :: 'b' :: rest => (parseStrChars rest).map (fun p => ('\x08' :: p.1, p.2))
  | '\\' :: 'f' :: rest => (parseStrChars rest).map (fun p => ('\x0c' :: p.1, p.2))
  | '\\' :: _ :: _ => none
  | ['\\'] => none
  | c :: rest => (parseStrChars rest).map (fun p => (c :: p.1, p.2))

/-- Literal number per the JSON grammar: optional minus, an integer part
with no leading zeros, optional fraction (at least one digit), optional
exponent (at least one digit). -/
def parseJsonNumber (l : List Char) : Option (DecNum × List Char) :=
  let signNeg : Bool := match l with
    | '-' :: _ => true
    | _ => false
  let l1 : List Char := match l with
    | '-' :: r => r
    | _ => l
  match l1 with
  | [] => none
  | c :: _ =>
    if !c.isDigit then none
    else
      let intD : List Char := if c = '0' then [c] else l1.takeWhile Char.isDigit
      let l2 := l1.drop intD.length
      let fracRes : Option (List Char × List Char) := match l2 with
        | '.' :: r =>
          let fd := r.takeWhile Char.isDigit
          if fd.isEmpty then none else some (fd, r.drop fd.length)
        | _ => some ([], l2)
      match fracRes with
      | none => none
      | some (fracD, l3) =>
        let base : DecNum := ⟨decSign signNeg (digitsToNat (intD ++ fracD)), fracD.length⟩
        match l3 with
        | 'e' :: r | 'E' :: r =>
          let eNeg : Bool := match r with
            | '-' :: _ => true
            | _ => false
          let r2 : List Char := match r with
            | '-' :: x => x
            | '+' :: x => x
            | _ => r
          let ed := r2.takeWhile Char.isDigit
          if ed.isEmpty then none
          else if eNeg then some (⟨base.m, base.e + digitsToNat ed⟩, r2.drop ed.length)
          else some (⟨base.m * ((10 ^ digitsToNat ed : ℕ) : ℤ), base.e⟩, r2.drop ed.length)
        | _ => some (base, l3)

/-- Parsing mode of the fuelled JSON parser: a single value, the element
list of an array after the opening bracket, or the field list of an object
after the opening brace. -/
inductive PMode where
  | val
  | items
  | fields

/-- Recursive-descent JSON parser, structurally recursive on a fuel
argument so that it reduces inside the kernel.  In items mode the result
is wrapped in Json.arr, in fields mode in Json.obj. -/
def parseJ : ℕ → PMode → List Char → Option (Json × List Char)
  | 0, _, _ => none
  | f + 1, .val, l =>
    (match skipWs l with
     | 'n' :: 'u' :: 'l' :: 'l' :: rest => some (.null, rest)
     | 't' :: 'r' :: 'u' :: 'e' :: rest => some (.bool true, rest)
     | 'f' :: 'a' :: 'l' :: 's' :: 'e' :: rest => some (.bool false, rest)
     | '"' :: rest => (parseStrChars rest).map (fun p => (.str ⟨p.1⟩, p.2))
     | '[' :: rest =>
       (match skipWs rest with
        | ']' :: r2 => some (.arr [], r2)
        | r2 => parseJ f .items r2)
     | '{' :: rest =>
       (match skipWs rest with
        | '}' :: r2 => some (.obj [], r2)
        | r2 => parseJ f .fields r2)
     | r => (parseJsonNumber r).map (fun p => (.num p.1, p.2)))
  | f + 1, .items, l =>
    (match parseJ f .val l with
     | some (v, r) =>
       (match skipWs r with
        | ']' :: r2 => some (.arr [v], r2)
        | ',' :: r2 =>
          (match parseJ f .items r2 with
           | some (.arr vs, r3) => some (.arr (v :: vs), r3)
           | _ => none)
        | _ => none)
     | none => none)
  | f + 1, .fields, l =>
    (match skipWs l with
     | '"' :: rest =>
       (match parseStrChars rest with
        | some (kcs, r) =>
          (match skipWs r with
           | ':' :: r2 =>
             (match parseJ f .val r2 with
              | some (v, r3) =>
                (match skipWs r3 with
                 | '}' :: r4 => some (.obj [(⟨kcs⟩, v)], r4)
                 | ',' :: r4 =>
                   (match parseJ f .fields r4 with
                    | some (.obj fs, r5) => some (.obj ((⟨kcs⟩, v) :: fs), r5)
                    | _ => none)
                 | _ => none)
              | none => none)
           | _ => none)
        | none => none)
     | _ => none)

/-- JSON.parse on a character list: one value, then only whitespace may
remain.  The fuel is sufficient for any input since every two units of
fuel consume at least one character. -/
def jsonParseChars (l : List Char) : Option Json :=
  match parseJ (2 * l.length + 2) .val l with
  | some (v, r) => if (skipWs r).isEmpty then some v else none
  | none => none

/-- Model of JSON.parse. -/
def jsonParse (s : String) : Option Json :=
  jsonParseChars s.data

/-- The span matched by the regular expression of the salvage step in
/api/process-order: from the first opening brace to the last closing
brace of the text (a greedy match), or none when the regex does not
match. -/
def extractBraceSpan (l : List Char) : Option (List Char) :=
  match l.dropWhile (fun c => c != '{') with
  | [] => none
  | c :: t2 =>
    match (c :: t2).reverse.dropWhile (fun c2 => c2 != '}') with
    | [] => none
    | d :: r2 => some ((d :: r2).reverse)

/-- The parse step of /api/process-order: JSON.parse on the raw text, and
on failure JSON.parse on the greedy brace span; none models the error that
the route surfaces as a generic failure. -/
def parseOrderDataChars (l : List Char) : Option Json :=
  match jsonParseChars l with
  | some v => some v
  | none =>
    match extractBraceSpan l with
    | none => none
    | some sp => jsonParseChars sp

/-- String-level wrapper of parseOrderDataChars. -/
def parseOrderData (s : String) : Option Json :=
  parseOrderDataChars s.data

/-- Property read on a parsed JSON value: none models undefined.  On an
object a later duplicate key wins, as JavaScript assignment would. -/
def jGetField (j : Json) (k : String) : Option Json :=
  match j with
  | .obj fs => fs.foldl (fun acc p => if p.1 = k then some p.2 else acc) none
  | _ => none

/-- JavaScript truthiness of a JSON value. -/
def jsTruthy : Json → Bool
  | .null => false
  | .bool b => b
  | .num q => !q.isZero
  | .str s => s ≠ ""
  | .arr _ => true
  | .obj _ => true

/-- Truthiness of a possibly absent value: undefined is falsy. -/
def jsTruthyOpt : Option Json → Bool
  | none => false
  | some v => jsTruthy v

/-- Read a field expected by the oracle schema to be a string; a missing
or non-string value is modelled as the empty string. -/
def asString (o : Option Json) : String :=
  match o with
  | some (.str s) => s
  | _ => ("")

/-- Read an optional string field: absent, null or non-string becomes
none. -/
def asStringOpt (o : Option Json) : Option String :=
  match o with
  | some (.str s) => some s
  | _ => none

/-- The partial item under construction, with the attribute fields the
oracle prompt schema names.  The source carries it as a plain JSON object;
the schema fields are modelled explicitly. -/
structure PendingItem where
  item : String
  size : Option String
  temperature : Option String
  milk : Option String
  modifications : Option String
deriving DecidableEq, Repr

/-- The spread of the pending item plus the resolved price that the turn
handler pushes onto orderItems. -/
structure OrderLineItem where
  pending : PendingItem
  price : DecNum
deriving DecidableEq, Repr

/-- One dialogue turn kept in conversationHistory. -/
structure Msg where
  role : String
  content : String
deriving DecidableEq, Repr

/-- Per-session state held in the conversationStates map.  The
lastActivity timestamp only feeds the idle sweep and is not modelled. -/
structure ConvState where
  orderItems : List OrderLineItem
  currentItem : Option PendingItem
  conversationHistory : List Msg
deriving DecidableEq, Repr

/-- The fresh state created on first reference to a session id. -/
def emptyConvState : ConvState := ⟨[], none, []⟩

/-- The structured oracle reply as the turn handler reads it off the
parsed JSON object. -/
structure AiResponse where
  reply : String
  needsMoreInfo : Bool
  orderComplete : Bool
  currentItem : Option PendingItem
  action : String
deriving DecidableEq, Repr

/-- Decode the currentItem field: the handler replaces the pending item
only when the field is truthy.  A truthy value is read through the schema
fields of PendingItem. -/
def toPending (o : Option Json) : Option PendingItem :=
  match o with
  | none => none
  | some v =>
    if jsTruthy v then
      some ⟨asString (jGetField v ("item")),
            asStringOpt (jGetField v ("size")),
            asStringOpt (jGetField v ("temperature")),
            asStringOpt (jGetField v ("milk")),
            asStringOpt (jGetField v ("modifications"))⟩
    else none

/-- Field reads the conversation-turn handler performs on the parsed
oracle reply. -/
def toAiResponse (j : Json) : AiResponse :=
  ⟨asString (jGetField j ("reply")),
   jsTruthyOpt (jGetField j ("needsMoreInfo")),
   jsTruthyOpt (jGetField j ("orderComplete")),
   toPending (jGetField j ("currentItem")),
   asString (jGetField j ("action"))⟩

/-- The inline price computation of the add_item branch: lowercase the
item name (no trim), optionally lowercase the size, then look the price
up, leaving 0 when the entry is missing, the entry is falsy, the size is
absent or empty, or the size key is missing. -/
def resolvePrice (menu : Menu) (rawItem : String) (rawSize : Option String) : DecNum :=
  let itemName := jsLower rawItem
  let size := rawSize.map jsLower
  match alookup menu itemName with
  | none => ⟨0, 0⟩
  | some entry =>
    if menuEntryTruthy entry then
      match entry with
      | .flat p => p
      | .sized sm =>
        match size with
        | none => ⟨0, 0⟩
        | some s =>
          if s = "" then ⟨0, 0⟩
          else
            match alookup sm s with
            | none => ⟨0, 0⟩
            | some p => if p.isZero then ⟨0, 0⟩ else p
    else ⟨0, 0⟩

/-- Append one message to the dialogue history. -/
def pushMsg (st : ConvState) (role text : String) : ConvState :=
  { st with conversationHistory := st.conversationHistory ++ [⟨role, text⟩] }

/-- Step 1 after parsing: replace the pending item when the reply carries
a truthy currentItem. -/
def applyCurrentItem (st : ConvState) (r : AiResponse) : ConvState :=
  match r.currentItem with
  | some p => { st with currentItem := some p }
  | none => st

/-- Step 2: on action add_item with a pending item present, push the
pending attributes plus the resolved price onto orderItems and clear the
pending item. -/
def applyAddItem (menu : Menu) (st : ConvState) (r : AiResponse) : ConvState :=
  if r.action = "add_item" then
    match st.currentItem with
    | some p =>
      { st with
        orderItems := st.orderItems ++ [⟨p, resolvePrice menu p.item p.size⟩],
        currentItem := none }
    | none => st
  else st

/-- customerName || the Guest placeholder: the empty string is falsy. -/
def jsOrGuest (customerName : Option String) : String :=
  match customerName with
  | some c => if c = "" then ("Guest") else c
  | none => ("Guest")

/-- item.price || 0 inside the total reduce: a zero value stays zero. -/
def jsPriceOr0 (d : DecNum) : DecNum :=
  if d.isZero then ⟨0, 0⟩ else d

/-- The total the finalizer computes: reduce over orderItems. -/
def orderTotal (items : List OrderLineItem) : DecNum :=
  items.foldl (fun s it => s.add (jsPriceOr0 it.price)) ⟨0, 0⟩

/-- The row appended to the ledger sheet on finalization.  The wall-clock
timestamp column is outside the model. -/
structure FinalizedOrder where
  customerName : String
  items : List OrderLineItem
  total : DecNum
  status : String
  orderNumber : ℕ
deriving DecidableEq, Repr

/-- The response the conversation-turn route sends.  The best-effort audio
attachment never changes state or control flow and is not modelled. -/
inductive TurnResponse where
  | serverError
  | turnReply (reply : String) (needsMoreInfo : Bool) (currentItem : Option PendingItem)
  | orderDone (reply : String) (orderNumber : ℕ) (total : DecNum) (items : List OrderLineItem)
deriving DecidableEq, Repr

/-- Everything observable about one conversation turn: the HTTP response,
the ledger row written (none when nothing was persisted), and whether the
session was deleted from the store. -/
structure TurnOutcome where
  response : TurnResponse
  ledgerWrite : Option FinalizedOrder
  sessionDeleted : Bool
deriving DecidableEq, Repr

/-- The tail of the turn handler: given the fully mutated session state,
either finalize (append the ledger row, delete the session, send the
order summary), fail when the append rejects, or send the conversational
reply.  The total-less persistence test of the source is kept verbatim:
orderComplete truthy and a nonempty completed list. -/
def convTurnOutcome (r : AiResponse) (customerName : Option String)
    (appendOk : Bool) (orderNumber : ℕ) (st4 : ConvState) : TurnOutcome :=
  if r.orderComplete && decide (st4.orderItems.length > 0) then
    if appendOk then
      ⟨.orderDone r.reply orderNumber (orderTotal st4.orderItems) st4.orderItems,
       some ⟨jsOrGuest customerName, st4.orderItems, orderTotal st4.orderItems,
             ("pending"), orderNumber⟩,
       true⟩
    else
      ⟨.serverError, none, false⟩
  else
    ⟨.turnReply r.reply r.needsMoreInfo st4.currentItem, none, false⟩

/-- The session state at the end of a parsed turn: pending-item
replacement, the add_item branch, then the assistant history append. -/
def turnFinalState (menu : Menu) (st1 : ConvState) (r : AiResponse) : ConvState :=
  pushMsg (applyAddItem menu (applyCurrentItem st1 r) r) ("assistant") r.reply

/-- The turn handler after a successful parse of the oracle output, on a
state that already holds the inbound user message.  appendOk tells
whether the ledger append resolves or rejects; a rejection propagates to
the catch-all, which answers with the generic failure. -/
def convTurnParsed (menu : Menu) (st1 : ConvState) (r : AiResponse)
    (customerName : Option String) (appendOk : Bool) (orderNumber : ℕ) :
    ConvState × TurnOutcome :=
  (turnFinalState menu st1 r,
   convTurnOutcome r customerName appendOk orderNumber (turnFinalState menu st1 r))

/-- One call of the /api/conversation-turn handler on a given session
state.  The user message is appended to the history before the oracle
output is parsed; JSON.parse failure therefore leaves that append behind
and surfaces the generic failure.  The returned state is the state object
as it stands in the map when the handler finishes, including the partial
mutations preceding a thrown error. -/
def convTurn (menu : Menu) (st : ConvState) (userMessage : String)
    (customerName : Option String) (oracleRaw : String) (appendOk : Bool)
    (orderNumber : ℕ) : ConvState × TurnOutcome :=
  let st1 := pushMsg st ("user") userMessage
  match jsonParse oracleRaw with
  | none => (st1, ⟨.serverError, none, false⟩)
  | some j => convTurnParsed menu st1 (toAiResponse j) customerName appendOk orderNumber

/-- The in-memory conversationStates map. -/
abbrev SessionStore := List (String × ConvState)

/-- One conversation turn at store level: getConversationState creates the
session lazily, the handler mutates the state object in place, and a
successful finalization deletes the session. -/
def processConvTurn (store : SessionStore) (sessionId : String) (menu : Menu)
    (userMessage : String) (customerName : Option String) (oracleRaw : String)
    (appendOk : Bool) (orderNumber : ℕ) : SessionStore × TurnOutcome :=
  let st := (alookup store sessionId).getD emptyConvState
  let res := convTurn menu st userMessage customerName oracleRaw appendOk orderNumber
  (if res.2.sessionDeleted then alistErase store sessionId
   else alistInsert store sessionId res.1, res.2)

/-- length === 0 on a field value: only arrays and strings expose a
numeric length; undefined.length is undefined and compares false. -/
def jsLenIsZero : Option Json → Bool
  | some (.arr l) => l.isEmpty
  | some (.str s) => s.data.isEmpty
  | _ => false

/-- total === 0: strict equality against the number literal holds only
for a number of value zero. -/
def jsIsNumZero : Option Json → Bool
  | some (.num q) => q.isZero
  | _ => false

/-- The response of the /api/process-order route. -/
inductive OrderResponse where
  | serverError
  | rejected (response : String)
  | accepted (orderData : Json) (orderNumber : ℕ)

/-- Observable outcome of one /api/process-order call. -/
structure OrderOutcome where
  response : OrderResponse
  ledgerWrite : Option (String × Json × Json × String × ℕ)

/-- The /api/process-order handler after the oracle call: parse with the
greedy-brace salvage, reject without persisting when items is falsy or
has length zero or total is strictly the number 0, otherwise append the
ledger row.  A parse failure or a failed append surfaces the generic
failure. -/
def processOrder (oracleRaw : String) (customerName : Option String)
    (appendOk : Bool) (orderNumber : ℕ) : OrderOutcome :=
  match parseOrderData oracleRaw with
  | none => ⟨.serverError, none⟩
  | some od =>
    let items := jGetField od ("items")
    let total := jGetField od ("total")
    if !jsTruthyOpt items || jsLenIsZero items || jsIsNumZero total then
      ⟨.rejected (asString (jGetField od ("response"))), none⟩
    else if appendOk then
      ⟨.accepted od orderNumber,
       some (jsOrGuest customerName, items.getD .null, total.getD .null, ("pending"), orderNumber)⟩
    else
      ⟨.serverError, none⟩

/-- Modelled from the spec words of claim C3: strip a dollar sign only
when it is the first character. -/
def specStripLeadingDollar (s : String) : String :=
  match s.data with
  | '$' :: r => ⟨r⟩
  | _ => s

/-- Modelled from the spec words of claim C3: a row is accepted exactly
when its item name is nonempty and its price parses to a positive number
after stripping a leading dollar sign. -/
def specRowAccepted (r : Row) : Bool :=
  r.item ≠ "" && (match parseFloatQ (specStripLeadingDollar r.price) with
    | some q => decide (0 < q.val)
    | none => false)

/-- The row acceptance condition of the amended claim C3: nonempty item
name and a price parsing to a nonzero number after removing the first
dollar sign anywhere in the string. -/
def amendedRowAccepted (r : Row) : Bool :=
  r.item ≠ "" && (match parseFloatQ (removeFirstDollar r.price) with
    | some q => !q.isZero
    | none => false)

/-
Theorems for the frozen claims.
-/

lemma decnum_val_zero (p : DecNum) (h : p.isZero = true) : p.val = 0 := by
  have hm : p.m = 0 := by simpa [DecNum.isZero] using h
  simp [DecNum.val, hm]

/-- C8 counterexample: in src/server.js the menu getter answers a fetch
failure with the empty object, so the returned snapshot is empty there,
against the claim that a hardcoded non-empty fallback always stands in. -/
theorem C8_counterexample : (getMenu_server .failure).isEmpty = true := rfl

/-- C8 (amended): on fetch failure the part_000 variant returns the
hardcoded non-empty fallback snapshot, while the server.js variant
returns an empty snapshot, so the returned menu is not always
non-empty. -/
theorem C8_fallback : getMenu_part000 .failure = fallbackMenu
    ∧ fallbackMenu.isEmpty = false
    ∧ getMenu_server .failure = [] :=
  ⟨rfl, rfl, rfl⟩

/-- C10: a fetch triggered by getCachedMenu stores its result in the two
cache variables in the same way whether it failed or succeeded; after a
failed fetch at time t0, every call while now - t0 does not exceed the
cache duration returns the cached fallback snapshot without issuing a
fetch, and a call strictly past the window fetches again. -/
theorem C10_cache_failure_window (gm : FetchOutcome → Menu) (dur : ℕ)
    (st0 : MenuCacheState) (t0 : ℕ)
    (h : st0.cachedMenu = none ∨ t0 - st0.lastMenuFetch > dur) :
    (∀ o, getCachedMenu gm dur st0 t0 o = (gm o, ⟨some (gm o), t0⟩, true))
    ∧ (∀ t1 o1, ¬(t1 - t0 > dur) →
        getCachedMenu gm dur ⟨some (gm .failure), t0⟩ t1 o1
          = (gm .failure, ⟨some (gm .failure), t0⟩, false))
    ∧ (∀ t1 o1, t1 - t0 > dur →
        getCachedMenu gm dur ⟨some (gm .failure), t0⟩ t1 o1
          = (gm o1, ⟨some (gm o1), t1⟩, true)) := by
  refine ⟨?_, ?_, ?_⟩
  · intro o
    have hc : (st0.cachedMenu.isNone || decide (t0 - st0.lastMenuFetch > dur)) = true := by
      rcases h with h | h
      · simp [h]
      · simp [h]
    simp [getCachedMenu, hc]
  · intro t1 o1 h1
    have hc : ((some (gm .failure)).isNone || decide (t1 - t0 > dur)) = false := by
      simp [h1]
    simp [getCachedMenu, hc]
    omega
  · intro t1 o1 h1
    simp [getCachedMenu, h1]

/-- C10 witness: with the part_000 variant and its five-minute duration, a
first call at time 5 on an empty cache with a failing source stores the
fallback, and a call at time 10 returns the cached fallback without
fetching. -/
theorem C10_witness :
    ((⟨none, 0⟩ : MenuCacheState).cachedMenu = none ∨ (5 : ℕ) - 0 > MENU_CACHE_DURATION_part000)
    ∧ getCachedMenu getMenu_part000 MENU_CACHE_DURATION_part000 ⟨none, 0⟩ 5 .failure
        = (getMenu_part000 .failure, ⟨some (getMenu_part000 .failure), 5⟩, true)
    ∧ getCachedMenu getMenu_part000 MENU_CACHE_DURATION_part000
        ⟨some (getMenu_part000 .failure), 5⟩ 10 (.success [])
        = (getMenu_part000 .failure, ⟨some (getMenu_part000 .failure), 5⟩, false) :=
  ⟨Or.inl rfl,
   (C10_cache_failure_window getMenu_part000 MENU_CACHE_DURATION_part000 ⟨none, 0⟩ 5
      (Or.inl rfl)).1 .failure,
   (C10_cache_failure_window getMenu_part000 MENU_CACHE_DURATION_part000 ⟨none, 0⟩ 5
      (Or.inl rfl)).2.1 10 (.success []) (by decide)⟩

/-- C4: price resolution returns the flat price (as a value) regardless of
any supplied size when the menu entry is flat, and resolves to 0 rather
than failing when the entry is sized and the size is absent or its key is
missing. -/
theorem C4_pricing_resolution :
    (∀ (menu : Menu) (rawItem : String) (rawSize : Option String) (p : DecNum),
       alookup menu (jsLower rawItem) = some (.flat p) →
       (resolvePrice menu rawItem rawSize).val = p.val)
    ∧ (∀ (menu : Menu) (rawItem : String) (rawSize : Option String)
         (sm : List (String × DecNum)),
       alookup menu (jsLower rawItem) = some (.sized sm) →
       (rawSize = none ∨ ∀ s, rawSize = some s → alookup sm (jsLower s) = none) →
       resolvePrice menu rawItem rawSize = ⟨0, 0⟩) := by
  constructor
  · intro menu rawItem rawSize p h
    simp only [resolvePrice, h]
    by_cases hz : p.isZero = true
    · have h0 : DecNum.val ⟨0, 0⟩ = 0 := by simp [DecNum.val]
      simp [menuEntryTruthy, hz, h0, decnum_val_zero p hz]
    · simp [menuEntryTruthy, hz]
  · intro menu rawItem rawSize sm h h2
    simp only [resolvePrice, h]
    rcases h2 with h2 | h2
    · simp [menuEntryTruthy, h2]
    · cases rawSize with
      | none => simp [menuEntryTruthy]
      | some s =>
        have h3 := h2 s rfl
        by_cases he : jsLower s = ""
        · simp [menuEntryTruthy, he]
        · simp [menuEntryTruthy, he, h3]

/-- C4 witness: a flat muffin entry resolves to its price even with a size
supplied, and a sized latte entry with an unknown size resolves to 0. -/
theorem C4_witness :
    (alookup [(("muffin"), MenuEntry.flat ⟨4, 0⟩)] (jsLower ("Muffin"))
       = some (.flat ⟨4, 0⟩)
     ∧ (resolvePrice [(("muffin"), MenuEntry.flat ⟨4, 0⟩)] ("Muffin")
          (some ("large"))).val = DecNum.val ⟨4, 0⟩)
    ∧ (alookup [(("latte"), MenuEntry.sized [(("large"), ⟨450, 2⟩)])] (jsLower ("latte"))
         = some (.sized [(("large"), ⟨450, 2⟩)])
       ∧ resolvePrice [(("latte"), MenuEntry.sized [(("large"), ⟨450, 2⟩)])] ("latte")
           (some ("mega")) = ⟨0, 0⟩) :=
  ⟨⟨rfl, C4_pricing_resolution.1 [(("muffin"), MenuEntry.flat ⟨4, 0⟩)] ("Muffin")
      (some ("large")) ⟨4, 0⟩ rfl⟩,
   ⟨rfl, C4_pricing_resolution.2 [(("latte"), MenuEntry.sized [(("large"), ⟨450, 2⟩)])]
      ("latte") (some ("mega")) [(("large"), ⟨450, 2⟩)] rfl
      (Or.inr (by intro s hs; cases hs; rfl))⟩⟩

lemma buildMenu_singleton (r : Row) : buildMenu [r] = rowStep [] r := by
  cases h : rowStep [] r <;> simp [buildMenu, List.foldlM, h]

lemma parseFloat_empty_price : parseFloatQ (removeFirstDollar ("")) = none := rfl

lemma price_nonempty_of_parse (r : Row) (q : DecNum)
    (hp : parseFloatQ (removeFirstDollar r.price) = some q) : r.price ≠ "" := by
  intro he
  rw [he, parseFloat_empty_price] at hp
  exact Option.noConfusion hp

lemma rowStep_rejected (r : Row) (ha : amendedRowAccepted r = false) :
    rowStep [] r = some [] := by
  unfold amendedRowAccepted at ha
  by_cases hi : r.item = ""
  · simp [rowStep, hi]
  · cases hp : parseFloatQ (removeFirstDollar r.price) with
    | none =>
      by_cases hpr : r.price = ""
      · simp [rowStep, hpr]
      · simp [rowStep, hi, hpr, hp]
    | some q =>
      rw [hp] at ha
      have hz : q.isZero = true := by simpa [hi] using ha
      simp [rowStep, hi, price_nonempty_of_parse r q hp, hp, hz]

/-- C3 counterexample: the row (syrup, no size, price -$2) produces a menu
entry (a flat entry priced -2), while the claimed acceptance condition --
a parseable positive price after stripping a dollar prefix -- rejects it:
the code removes the first dollar sign anywhere and only filters out NaN
and zero, letting negative prices through. -/
theorem C3_counterexample :
    buildMenu [⟨("syrup"), (""), ("-$2")⟩] = some [(("syrup"), .flat ⟨-2, 0⟩)]
    ∧ specRowAccepted ⟨("syrup"), (""), ("-$2")⟩ = false :=
  ⟨rfl, rfl⟩

/-- C3 (amended): a singleton row produces a menu entry exactly when it
has a nonempty item name and a price parsing to a nonzero number after
removing the first dollar sign anywhere; keys are lowercased and trimmed;
a blank size yields a flat entry, a nonblank size yields or extends a
sized entry; and the Latte/Large/4.50 dollar row yields the sized latte
entry of value 4.5. -/
theorem C3_menu_rows :
    (∀ r : Row, (∃ m, buildMenu [r] = some m ∧ m ≠ []) ↔ amendedRowAccepted r = true)
    ∧ (∀ (r : Row) (q : DecNum), amendedRowAccepted r = true →
        parseFloatQ (removeFirstDollar r.price) = some q →
        jsTrim r.size = "" →
        buildMenu [r] = some [(jsTrim (jsLower r.item), .flat q)])
    ∧ (∀ (r : Row) (q : DecNum), amendedRowAccepted r = true →
        parseFloatQ (removeFirstDollar r.price) = some q →
        jsTrim r.size ≠ "" →
        buildMenu [r] = some [(jsTrim (jsLower r.item),
          .sized [(jsTrim (jsLower r.size), q)])])
    ∧ (∀ (m : Menu) (r : Row) (q : DecNum) (sm : List (String × DecNum)),
        amendedRowAccepted r = true →
        parseFloatQ (removeFirstDollar r.price) = some q →
        jsTrim r.size ≠ "" →
        alookup m (jsTrim (jsLower r.item)) = some (.sized sm) →
        rowStep m r = some (alistInsert m (jsTrim (jsLower r.item))
          (.sized (alistInsert sm (jsTrim (jsLower r.size)) q))))
    ∧ (buildMenu [⟨("Latte"), ("Large"), ("$4.50")⟩]
         = some [(("latte"), .sized [(("large"), ⟨450, 2⟩)])]
       ∧ DecNum.val ⟨450, 2⟩ = 9 / 2) := by
  refine ⟨?_, ?_, ?_, ?_, ?_, ?_⟩
  · intro r
    constructor
    · rintro ⟨m, hm, hne⟩
      by_contra hfalse
      have ha : amendedRowAccepted r = false := by
        revert hfalse
        cases amendedRowAccepted r <;> simp
      rw [buildMenu_singleton, rowStep_rejected r ha] at hm
      exact hne (Option.some.inj hm).symm
    · intro ha
      unfold amendedRowAccepted at ha
      cases hp : parseFloatQ (removeFirstDollar r.price) with
      | none => rw [hp] at ha; simp at ha
      | some q =>
        rw [hp] at ha
        simp only [Bool.and_eq_true, Bool.not_eq_true', decide_eq_true_eq] at ha
        rw [buildMenu_singleton]
        by_cases hs : jsTrim r.size = ""
        · exact ⟨[(jsTrim (jsLower r.item), .flat q)],
            by simp [rowStep, ha.1, price_nonempty_of_parse r q hp, hp, ha.2, hs, alistInsert],
            by simp⟩
        · exact ⟨[(jsTrim (jsLower r.item), .sized [(jsTrim (jsLower r.size), q)])],
            by simp [rowStep, ha.1, price_nonempty_of_parse r q hp, hp, ha.2, hs,
              alookup, alistInsert],
            by simp⟩
  · intro r q ha hp hs
    unfold amendedRowAccepted at ha
    rw [hp] at ha
    simp only [Bool.and_eq_true, Bool.not_eq_true', decide_eq_true_eq] at ha
    rw [buildMenu_singleton]
    simp [rowStep, ha.1, price_nonempty_of_parse r q hp, hp, ha.2, hs, alistInsert]
  · intro r q ha hp hs
    unfold amendedRowAccepted at ha
    rw [hp] at ha
    simp only [Bool.and_eq_true, Bool.not_eq_true', decide_eq_true_eq] at ha
    rw [buildMenu_singleton]
    simp [rowStep, ha.1, price_nonempty_of_parse r q hp, hp, ha.2, hs, alookup, alistInsert]
  · intro m r q sm ha hp hs hl
    unfold amendedRowAccepted at ha
    rw [hp] at ha
    simp only [Bool.and_eq_true, Bool.not_eq_true', decide_eq_true_eq] at ha
    simp [rowStep, ha.1, price_nonempty_of_parse r q hp, hp, ha.2, hs, hl]
  · rfl
  · norm_num [DecNum.val]

/-- C3 witness: the Latte/Large/4.50 dollar row satisfies the amended
acceptance condition and produces the sized latte entry. -/
theorem C3_witness :
    amendedRowAccepted ⟨("Latte"), ("Large"), ("$4.50")⟩ = true
    ∧ parseFloatQ (removeFirstDollar ("$4.50")) = some ⟨450, 2⟩
    ∧ jsTrim ("Large") ≠ ""
    ∧ buildMenu [⟨("Latte"), ("Large"), ("$4.50")⟩]
        = some [(jsTrim (jsLower ("Latte")),
            .sized [(jsTrim (jsLower ("Large")), ⟨450, 2⟩)])] :=
  ⟨rfl, rfl, by decide,
   C3_menu_rows.2.2.1 ⟨("Latte"), ("Large"), ("$4.50")⟩ ⟨450, 2⟩ rfl rfl (by decide)⟩

lemma convTurnOutcome_serverError (r : AiResponse) (cn : Option String) (ok : Bool)
    (onum : ℕ) (st4 : ConvState)
    (h : (convTurnOutcome r cn ok onum st4).response = .serverError) :
    r.orderComplete = true ∧ st4.orderItems ≠ [] ∧ ok = false := by
  unfold convTurnOutcome at h
  by_cases hc : (r.orderComplete && decide (st4.orderItems.length > 0)) = true
  · rw [if_pos hc] at h
    by_cases hk : ok = true
    · rw [if_pos hk] at h
      exact absurd h (by simp)
    · simp only [Bool.and_eq_true, decide_eq_true_eq] at hc
      refine ⟨hc.1, ?_, by simpa using hk⟩
      intro hnil
      rw [hnil] at hc
      simp at hc
  · rw [if_neg hc] at h
    exact absurd h (by simp)

/-- C5 (amended): when the oracle output does not parse as JSON, the turn
surfaces the generic processing failure, persists nothing and keeps the
session, and the session state is the prior state except that the inbound
user message has already been appended to the dialogue history --
completed items and the pending item are unchanged, but the history
retains that one partial update.  The conversation-turn route applies no
salvage step. -/
theorem C5_parse_failure_state (menu : Menu) (st : ConvState) (um : String)
    (cn : Option String) (raw : String) (ok : Bool) (onum : ℕ)
    (h : jsonParse raw = none) :
    convTurn menu st um cn raw ok onum
      = (pushMsg st ("user") um, ⟨.serverError, none, false⟩) := by
  unfold convTurn
  rw [h]

/-- C5 witness: the unparseable oracle output oops triggers the failure
outcome with exactly the user-message append. -/
theorem C5_witness :
    jsonParse ("oops") = none
    ∧ convTurn [] emptyConvState ("hi") none ("oops") true 1
        = (pushMsg emptyConvState ("user") ("hi"), ⟨.serverError, none, false⟩) :=
  ⟨rfl, C5_parse_failure_state [] emptyConvState ("hi") none ("oops") true 1 rfl⟩

/-- C5 counterexample: on an unparseable oracle output the session state is
not left exactly as it was before the turn: the dialogue history has
grown by the user message while the route answers with the generic
failure, so a partial update is committed. -/
theorem C5_counterexample :
    (convTurn [] emptyConvState ("hi") none ("oops") true 1).2.response = .serverError
    ∧ (convTurn [] emptyConvState ("hi") none ("oops") true 1).1.conversationHistory
        ≠ emptyConvState.conversationHistory :=
  ⟨rfl, by decide⟩

/-- C2: on a parsed oracle reply with action add_item and a pending item
in effect (the one the reply carries, or else the one already in the
session), the turn appends exactly one order line made of the pending
attributes plus the price resolved from the menu by the lowercased name
and size (resolvePrice yields 0 when unresolved), and clears the pending
item. -/
theorem C2_add_item (menu : Menu) (st : ConvState) (um : String) (cn : Option String)
    (raw : String) (ok : Bool) (onum : ℕ) (j : Json) (p : PendingItem)
    (hj : jsonParse raw = some j)
    (ha : (toAiResponse j).action = "add_item")
    (hp : (toAiResponse j).currentItem = some p
          ∨ ((toAiResponse j).currentItem = none ∧ st.currentItem = some p)) :
    (convTurn menu st um cn raw ok onum).1.orderItems
      = st.orderItems ++ [⟨p, resolvePrice menu p.item p.size⟩]
    ∧ (convTurn menu st um cn raw ok onum).1.currentItem = none := by
  unfold convTurn
  rw [hj]
  rcases hp with hpc | ⟨hpc, hsc⟩
  · constructor <;>
      simp [convTurnParsed, turnFinalState, pushMsg, applyCurrentItem, applyAddItem, ha, hpc]
  · constructor <;>
      simp [convTurnParsed, turnFinalState, pushMsg, applyCurrentItem, applyAddItem, ha, hpc, hsc]

/-- C2 witness: with a large latte pending in the session and an add_item
reply carrying no currentItem, the turn appends the line item priced from
the sized menu entry and clears the pending item. -/
theorem C2_witness :
    jsonParse ("\x7b\"reply\":\"ok\",\"action\":\"add_item\"\x7d")
      = some (.obj [(("reply"), .str ("ok")), (("action"), .str ("add_item"))])
    ∧ (convTurn [(("latte"), .sized [(("large"), ⟨450, 2⟩)])]
         ⟨[], some ⟨("latte"), some ("large"), none, none, none⟩, []⟩
         ("a large latte") none ("\x7b\"reply\":\"ok\",\"action\":\"add_item\"\x7d") true 7).1.orderItems
        = [] ++ [⟨⟨("latte"), some ("large"), none, none, none⟩,
            resolvePrice [(("latte"), .sized [(("large"), ⟨450, 2⟩)])] ("latte") (some ("large"))⟩]
    ∧ (convTurn [(("latte"), .sized [(("large"), ⟨450, 2⟩)])]
         ⟨[], some ⟨("latte"), some ("large"), none, none, none⟩, []⟩
         ("a large latte") none ("\x7b\"reply\":\"ok\",\"action\":\"add_item\"\x7d") true 7).1.currentItem
        = none :=
  ⟨rfl,
   (C2_add_item [(("latte"), .sized [(("large"), ⟨450, 2⟩)])]
      ⟨[], some ⟨("latte"), some ("large"), none, none, none⟩, []⟩
      ("a large latte") none ("\x7b\"reply\":\"ok\",\"action\":\"add_item\"\x7d") true 7
      (.obj [(("reply"), .str ("ok")), (("action"), .str ("add_item"))])
      ⟨("latte"), some ("large"), none, none, none⟩ rfl rfl
      (Or.inr ⟨rfl, rfl⟩)).1,
   (C2_add_item [(("latte"), .sized [(("large"), ⟨450, 2⟩)])]
      ⟨[], some ⟨("latte"), some ("large"), none, none, none⟩, []⟩
      ("a large latte") none ("\x7b\"reply\":\"ok\",\"action\":\"add_item\"\x7d") true 7
      (.obj [(("reply"), .str ("ok")), (("action"), .str ("add_item"))])
      ⟨("latte"), some ("large"), none, none, none⟩ rfl rfl
      (Or.inr ⟨rfl, rfl⟩)).2⟩

/-- C9: on a parsed add_item reply with no pending item in the session and
none carried by the reply, the completed list is unchanged and the
pending item stays absent; the price computation is guarded by the
pending-item test, and the only way such a turn answers the generic
failure is a failed ledger append during finalization, never the missing
pending item. -/
theorem C9_add_item_no_pending (menu : Menu) (st : ConvState) (um : String)
    (cn : Option String) (raw : String) (ok : Bool) (onum : ℕ) (j : Json)
    (hj : jsonParse raw = some j)
    (ha : (toAiResponse j).action = "add_item")
    (hc : (toAiResponse j).currentItem = none)
    (hs : st.currentItem = none) :
    (convTurn menu st um cn raw ok onum).1.orderItems = st.orderItems
    ∧ (convTurn menu st um cn raw ok onum).1.currentItem = none
    ∧ ((convTurn menu st um cn raw ok onum).2.response = .serverError →
        (toAiResponse j).orderComplete = true ∧ st.orderItems ≠ [] ∧ ok = false) := by
  unfold convTurn
  rw [hj]
  have h4 : (convTurnParsed menu (pushMsg st ("user") um) (toAiResponse j) cn ok onum).1.orderItems
      = st.orderItems := by
    simp [convTurnParsed, turnFinalState, pushMsg, applyCurrentItem, applyAddItem, ha, hc, hs]
  have h5 : (convTurnParsed menu (pushMsg st ("user") um) (toAiResponse j) cn ok onum).1.currentItem
      = none := by
    simp [convTurnParsed, turnFinalState, pushMsg, applyCurrentItem, applyAddItem, ha, hc, hs]
  refine ⟨h4, h5, ?_⟩
  intro he
  have he2 : (convTurnOutcome (toAiResponse j) cn ok onum
      ((convTurnParsed menu (pushMsg st ("user") um) (toAiResponse j) cn ok onum).1)).response
      = .serverError := he
  have h6 := convTurnOutcome_serverError (toAiResponse j) cn ok onum _ he2
  exact ⟨h6.1, h4 ▸ h6.2.1, h6.2.2⟩

/-- C9 witness: an add_item reply on an empty session leaves the completed
list empty, keeps the pending item absent, and does not fail. -/
theorem C9_witness :
    jsonParse ("\x7b\"reply\":\"ok\",\"action\":\"add_item\"\x7d")
      = some (.obj [(("reply"), .str ("ok")), (("action"), .str ("add_item"))])
    ∧ emptyConvState.currentItem = none
    ∧ (convTurn [] emptyConvState ("add it") none
         ("\x7b\"reply\":\"ok\",\"action\":\"add_item\"\x7d") true 3).1.orderItems
        = emptyConvState.orderItems
    ∧ (convTurn [] emptyConvState ("add it") none
         ("\x7b\"reply\":\"ok\",\"action\":\"add_item\"\x7d") true 3).1.currentItem = none :=
  ⟨rfl, rfl,
   (C9_add_item_no_pending [] emptyConvState ("add it") none
      ("\x7b\"reply\":\"ok\",\"action\":\"add_item\"\x7d") true 3
      (.obj [(("reply"), .str ("ok")), (("action"), .str ("add_item"))])
      rfl rfl rfl rfl).1,
   (C9_add_item_no_pending [] emptyConvState ("add it") none
      ("\x7b\"reply\":\"ok\",\"action\":\"add_item\"\x7d") true 3
      (.obj [(("reply"), .str ("ok")), (("action"), .str ("add_item"))])
      rfl rfl rfl rfl).2.1⟩

lemma list_isEmpty_true {α : Type} (l : List α) : l.isEmpty = true ↔ l = [] := by
  cases l <;> simp

lemma list_isEmpty_false {α : Type} (l : List α) : l.isEmpty = false ↔ l ≠ [] := by
  cases l <;> simp

lemma list_length_pos {α : Type} (l : List α) : 0 < l.length ↔ l ≠ [] := by
  cases l <;> simp

lemma alookup_not_mem {α : Type} (l : List (String × α)) (k : String)
    (h : k ∉ l.map Prod.fst) : alookup l k = none := by
  induction l with
  | nil => rfl
  | cons hd tl ih =>
    obtain ⟨k2, v2⟩ := hd
    simp only [List.map_cons, List.mem_cons, not_or] at h
    rw [show alookup ((k2, v2) :: tl) k = if k2 = k then some v2 else alookup tl k from rfl]
    rw [if_neg (fun hh => h.1 hh.symm)]
    exact ih h.2

lemma alookup_alistInsert_self {α : Type} (l : List (String × α)) (k : String) (v : α) :
    alookup (alistInsert l k v) k = some v := by
  induction l with
  | nil => simp [alistInsert, alookup]
  | cons hd tl ih =>
    obtain ⟨k2, v2⟩ := hd
    by_cases hk : k2 = k
    · simp [alistInsert, hk, alookup]
    · simp [alistInsert, hk, alookup, ih]

lemma alookup_alistErase_self {α : Type} (l : List (String × α)) (k : String)
    (h : (l.map Prod.fst).Nodup) : alookup (alistErase l k) k = none := by
  induction l with
  | nil => rfl
  | cons hd tl ih =>
    obtain ⟨k2, v2⟩ := hd
    simp only [List.map_cons, List.nodup_cons] at h
    by_cases hk : k2 = k
    · subst hk
      simp only [alistErase, if_pos rfl]
      exact alookup_not_mem tl k2 h.1
    · simp only [alistErase, if_neg hk]
      rw [show alookup ((k2, v2) :: alistErase tl k) k
          = if k2 = k then some v2 else alookup (alistErase tl k) k from rfl]
      rw [if_neg hk]
      exact ih h.2

lemma convTurn_some (menu : Menu) (st : ConvState) (um : String) (cn : Option String)
    (raw : String) (ok : Bool) (onum : ℕ) (j : Json) (hj : jsonParse raw = some j) :
    convTurn menu st um cn raw ok onum
      = convTurnParsed menu (pushMsg st ("user") um) (toAiResponse j) cn ok onum := by
  unfold convTurn
  rw [hj]

lemma convTurnOutcome_write_iff (r : AiResponse) (cn : Option String) (onum : ℕ)
    (st4 : ConvState) :
    ((convTurnOutcome r cn true onum st4).ledgerWrite ≠ none) ↔
      (r.orderComplete = true ∧ st4.orderItems ≠ []) := by
  unfold convTurnOutcome
  by_cases hc : (r.orderComplete && decide (st4.orderItems.length > 0)) = true
  · rw [if_pos hc, if_pos rfl]
    simp only [Bool.and_eq_true, decide_eq_true_eq] at hc
    constructor
    · intro _
      exact ⟨hc.1, (list_length_pos _).mp hc.2⟩
    · intro _
      simp
  · rw [if_neg hc]
    simp only [Bool.and_eq_true, decide_eq_true_eq, not_and] at hc
    constructor
    · intro hw
      exact absurd rfl hw
    · rintro ⟨h1, h2⟩
      exact absurd ((list_length_pos _).mpr h2) (hc h1)

lemma convTurnOutcome_finalize (r : AiResponse) (cn : Option String) (ok : Bool)
    (onum : ℕ) (st4 : ConvState)
    (hoc : r.orderComplete = true) (hne : st4.orderItems ≠ []) :
    (ok = true → convTurnOutcome r cn ok onum st4
        = ⟨.orderDone r.reply onum (orderTotal st4.orderItems) st4.orderItems,
           some ⟨jsOrGuest cn, st4.orderItems, orderTotal st4.orderItems, ("pending"), onum⟩,
           true⟩)
    ∧ (ok = false → convTurnOutcome r cn ok onum st4 = ⟨.serverError, none, false⟩) := by
  have hc : (r.orderComplete && decide (st4.orderItems.length > 0)) = true := by
    simp only [hoc, Bool.true_and, decide_eq_true_eq]
    exact (list_length_pos _).mpr hne
  constructor
  · intro hk
    subst hk
    unfold convTurnOutcome
    rw [if_pos hc, if_pos rfl]
  · intro hk
    subst hk
    unfold convTurnOutcome
    rw [if_pos hc, if_neg (by simp)]

/-- C1 (amended): with a working ledger, the single-turn path persists a
FinalizedOrder exactly when the parsed items array is nonempty and the
parsed total is a nonzero number, while the conversation path persists
exactly when the oracle signals completion and the completed list is
nonempty -- the conversation path does not test the total, so a
zero-total order with at least one line item is persisted there. -/
theorem C1_persistence_condition :
    (∀ (raw : String) (cn : Option String) (onum : ℕ) (od : Json)
       (l : List Json) (t : DecNum),
       parseOrderData raw = some od →
       jGetField od ("items") = some (.arr l) →
       jGetField od ("total") = some (.num t) →
       (((processOrder raw cn true onum).ledgerWrite ≠ none)
         ↔ (l ≠ [] ∧ t.isZero = false)))
    ∧ (∀ (menu : Menu) (st : ConvState) (um : String) (cn : Option String)
         (raw : String) (onum : ℕ) (j : Json),
       jsonParse raw = some j →
       (((convTurn menu st um cn raw true onum).2.ledgerWrite ≠ none) ↔
         ((toAiResponse j).orderComplete = true
          ∧ (convTurn menu st um cn raw true onum).1.orderItems ≠ []))) := by
  constructor
  · intro raw cn onum od l t hod hi ht
    unfold processOrder
    rw [hod]
    simp only [hi, ht, jsTruthyOpt, jsTruthy, jsLenIsZero, jsIsNumZero]
    by_cases hb : (l.isEmpty || t.isZero) = true
    · rw [if_pos (by simpa using hb)]
      rcases (by simpa using hb : l.isEmpty = true ∨ t.isZero = true) with hb1 | hb1
      · simp [(list_isEmpty_true l).mp hb1]
      · simp [hb1]
    · rw [if_neg (by simpa using hb)]
      have hb2 : l.isEmpty = false ∧ t.isZero = false := by
        simpa [not_or] using hb
      simp [hb2.1, hb2.2, (list_isEmpty_false l).mp hb2.1]
  · intro menu st um cn raw onum j hj
    rw [convTurn_some menu st um cn raw true onum j hj]
    simp only [convTurnParsed]
    exact convTurnOutcome_write_iff (toAiResponse j) cn onum
      (turnFinalState menu (pushMsg st ("user") um) (toAiResponse j))

/-- C1 counterexample: in the conversation path a finalization of a
session holding one zero-priced line item appends a ledger row with a
zero total, so persistence does not require a nonzero total. -/
theorem C1_counterexample :
    (convTurn [] ⟨[⟨⟨("matcha"), none, none, none, none⟩, ⟨0, 0⟩⟩], none, []⟩
       ("that is all") none
       ("\x7b\"reply\":\"done\",\"orderComplete\":true,\"action\":\"finalize_order\"\x7d")
       true 123).2.ledgerWrite
      = some ⟨("Guest"), [⟨⟨("matcha"), none, none, none, none⟩, ⟨0, 0⟩⟩], ⟨0, 0⟩,
          ("pending"), 123⟩
    ∧ DecNum.isZero ⟨0, 0⟩ = true :=
  ⟨rfl, rfl⟩

/-- C1 witness: a valid single-turn order with one latte item and total
4.50 satisfies the persistence equivalence, and a conversation
finalization on a one-item session satisfies the conversation-side
equivalence. -/
theorem C1_witness :
    parseOrderData ("\x7b\"items\":[\x7b\"item\":\"latte\",\"price\":4.50\x7d],\"total\":4.50,\"response\":\"ok\"\x7d")
      = some (.obj [(("items"), .arr [.obj [(("item"), .str ("latte")), (("price"), .num ⟨450, 2⟩)]]),
                    (("total"), .num ⟨450, 2⟩), (("response"), .str ("ok"))])
    ∧ (((processOrder ("\x7b\"items\":[\x7b\"item\":\"latte\",\"price\":4.50\x7d],\"total\":4.50,\"response\":\"ok\"\x7d")
          none true 42).ledgerWrite ≠ none)
        ↔ (([.obj [(("item"), .str ("latte")), (("price"), .num ⟨450, 2⟩)]] : List Json) ≠ []
           ∧ DecNum.isZero ⟨450, 2⟩ = false))
    ∧ jsonParse ("\x7b\"reply\":\"done\",\"orderComplete\":true,\"action\":\"finalize_order\"\x7d")
        = some (.obj [(("reply"), .str ("done")), (("orderComplete"), .bool true),
                      (("action"), .str ("finalize_order"))])
    ∧ (((convTurn [] ⟨[⟨⟨("mocha"), none, none, none, none⟩, ⟨350, 2⟩⟩], none, []⟩ ("done") none
          ("\x7b\"reply\":\"done\",\"orderComplete\":true,\"action\":\"finalize_order\"\x7d")
          true 9).2.ledgerWrite ≠ none) ↔
        ((toAiResponse (.obj [(("reply"), .str ("done")), (("orderComplete"), .bool true),
            (("action"), .str ("finalize_order"))])).orderComplete = true
         ∧ (convTurn [] ⟨[⟨⟨("mocha"), none, none, none, none⟩, ⟨350, 2⟩⟩], none, []⟩ ("done") none
             ("\x7b\"reply\":\"done\",\"orderComplete\":true,\"action\":\"finalize_order\"\x7d")
             true 9).1.orderItems ≠ [])) :=
  ⟨rfl,
   C1_persistence_condition.1
     ("\x7b\"items\":[\x7b\"item\":\"latte\",\"price\":4.50\x7d],\"total\":4.50,\"response\":\"ok\"\x7d")
     none 42
     (.obj [(("items"), .arr [.obj [(("item"), .str ("latte")), (("price"), .num ⟨450, 2⟩)]]),
            (("total"), .num ⟨450, 2⟩), (("response"), .str ("ok"))])
     [.obj [(("item"), .str ("latte")), (("price"), .num ⟨450, 2⟩)]]
     ⟨450, 2⟩ rfl rfl rfl,
   rfl,
   C1_persistence_condition.2 [] ⟨[⟨⟨("mocha"), none, none, none, none⟩, ⟨350, 2⟩⟩], none, []⟩
     ("done") none
     ("\x7b\"reply\":\"done\",\"orderComplete\":true,\"action\":\"finalize_order\"\x7d")
     9
     (.obj [(("reply"), .str ("done")), (("orderComplete"), .bool true),
            (("action"), .str ("finalize_order"))])
     rfl⟩

/-- C7: on a finalizing turn (parsed reply signalling completion, nonempty
completed list), a successful ledger append is followed unconditionally
by removal of the session from the store together with a ledger write,
while a failed append makes the whole turn fail with the generic failure
and leaves the session in the store (with its mutated state), so a retry
is possible. -/
theorem C7_finalize_session (store : SessionStore) (sid : String) (menu : Menu)
    (um : String) (cn : Option String) (raw : String) (ok : Bool) (onum : ℕ) (j : Json)
    (hnd : (store.map Prod.fst).Nodup)
    (hj : jsonParse raw = some j)
    (hoc : (toAiResponse j).orderComplete = true)
    (hne : (convTurn menu ((alookup store sid).getD emptyConvState) um cn raw ok
        onum).1.orderItems ≠ []) :
    (ok = true →
       alookup (processConvTurn store sid menu um cn raw ok onum).1 sid = none
       ∧ (processConvTurn store sid menu um cn raw ok onum).2.ledgerWrite ≠ none)
    ∧ (ok = false →
       (processConvTurn store sid menu um cn raw ok onum).2.response = .serverError
       ∧ alookup (processConvTurn store sid menu um cn raw ok onum).1 sid
           = some (convTurn menu ((alookup store sid).getD emptyConvState) um cn raw ok
               onum).1) := by
  have hcv := convTurn_some menu ((alookup store sid).getD emptyConvState) um cn raw ok onum j hj
  rw [hcv] at hne
  simp only [convTurnParsed] at hne
  have hfin := convTurnOutcome_finalize (toAiResponse j) cn ok onum
      (turnFinalState menu (pushMsg ((alookup store sid).getD emptyConvState) ("user") um)
        (toAiResponse j)) hoc hne
  constructor
  · intro hk
    subst hk
    have hout := hfin.1 rfl
    simp only [processConvTurn]
    rw [hcv]
    simp only [convTurnParsed]
    rw [hout]
    exact ⟨alookup_alistErase_self store sid hnd, Option.some_ne_none _⟩
  · intro hk
    subst hk
    have hout := hfin.2 rfl
    simp only [processConvTurn]
    rw [hcv]
    simp only [convTurnParsed]
    rw [hout]
    exact ⟨rfl, alookup_alistInsert_self store sid _⟩

/-- C7 witness: a finalizing turn with a working ledger on a one-session
store removes the session and records the write. -/
theorem C7_witness :
    jsonParse ("\x7b\"reply\":\"done\",\"orderComplete\":true,\"action\":\"finalize_order\"\x7d")
      = some (.obj [(("reply"), .str ("done")), (("orderComplete"), .bool true),
                    (("action"), .str ("finalize_order"))])
    ∧ alookup (processConvTurn
        [(("s1"), ⟨[⟨⟨("mocha"), none, none, none, none⟩, ⟨350, 2⟩⟩], none, []⟩)]
        ("s1") [] ("done") none
        ("\x7b\"reply\":\"done\",\"orderComplete\":true,\"action\":\"finalize_order\"\x7d")
        true 55).1 ("s1") = none
    ∧ (processConvTurn
        [(("s1"), ⟨[⟨⟨("mocha"), none, none, none, none⟩, ⟨350, 2⟩⟩], none, []⟩)]
        ("s1") [] ("done") none
        ("\x7b\"reply\":\"done\",\"orderComplete\":true,\"action\":\"finalize_order\"\x7d")
        true 55).2.ledgerWrite ≠ none :=
  ⟨rfl,
   (C7_finalize_session
      [(("s1"), ⟨[⟨⟨("mocha"), none, none, none, none⟩, ⟨350, 2⟩⟩], none, []⟩)]
      ("s1") [] ("done") none
      ("\x7b\"reply\":\"done\",\"orderComplete\":true,\"action\":\"finalize_order\"\x7d")
      true 55
      (.obj [(("reply"), .str ("done")), (("orderComplete"), .bool true),
             (("action"), .str ("finalize_order"))])
      (by decide) rfl rfl (by decide)).1 rfl |>.1,
   (C7_finalize_session
      [(("s1"), ⟨[⟨⟨("mocha"), none, none, none, none⟩, ⟨350, 2⟩⟩], none, []⟩)]
      ("s1") [] ("done") none
      ("\x7b\"reply\":\"done\",\"orderComplete\":true,\"action\":\"finalize_order\"\x7d")
      true 55
      (.obj [(("reply"), .str ("done")), (("orderComplete"), .bool true),
             (("action"), .str ("finalize_order"))])
      (by decide) rfl rfl (by decide)).1 rfl |>.2⟩

lemma dropWhile_append_all {p : Char → Bool} (l1 l2 : List Char)
    (h : ∀ c ∈ l1, p c = true) : (l1 ++ l2).dropWhile p = l2.dropWhile p := by
  induction l1 with
  | nil => rfl
  | cons hd tl ih =>
    rw [List.cons_append, List.dropWhile_cons, if_pos (h hd (List.mem_cons_self _ _))]
    exact ih (fun c hc => h c (List.mem_cons_of_mem _ hc))

lemma dropWhile_cons_of_neg {p : Char → Bool} (c : Char) (l : List Char)
    (h : p c = false) : (c :: l).dropWhile p = c :: l := by
  rw [List.dropWhile_cons, if_neg (by simp [h])]

lemma dropWhile_append_cons_of_stop {p : Char → Bool} (l1 : List Char) (c : Char)
    (l2 : List Char) (h1 : ∀ x ∈ l1, p x = true) (hc : p c = false) :
    (l1 ++ c :: l2).dropWhile p = c :: l2 := by
  rw [dropWhile_append_all l1 _ h1, dropWhile_cons_of_neg _ _ hc]

lemma extractBraceSpan_noise (pre mid post : List Char)
    (hpre : ∀ c ∈ pre, c ≠ '{')
    (hpost : ∀ c ∈ post, c ≠ '}') :
    extractBraceSpan (pre ++ ('{' :: mid ++ ['}']) ++ post)
      = some ('{' :: mid ++ ['}']) := by
  have hshape : pre ++ ('{' :: mid ++ ['}']) ++ post
      = pre ++ '{' :: (mid ++ ['}'] ++ post) := by
    simp
  have hrev : ('{' :: (mid ++ ['}'] ++ post)).reverse
      = post.reverse ++ '}' :: (mid.reverse ++ ['{']) := by
    simp
  have hd1 : (pre ++ ('{' :: mid ++ ['}']) ++ post).dropWhile (fun c => c != '{')
      = '{' :: (mid ++ ['}'] ++ post) := by
    rw [hshape]
    exact dropWhile_append_cons_of_stop pre '{' _
      (fun x hx => by simp [hpre x hx]) (by decide)
  have hd2 : ('{' :: (mid ++ ['}'] ++ post)).reverse.dropWhile (fun c2 => c2 != '}')
      = '}' :: (mid.reverse ++ ['{']) := by
    rw [hrev]
    exact dropWhile_append_cons_of_stop post.reverse '}' _
      (fun x hx => by simp [hpost x (List.mem_reverse.mp hx)]) (by decide)
  unfold extractBraceSpan
  simp only [hd1, hd2]
  simp

/-- C6 (amended): in the single-turn path, when the whole oracle text does
not parse as JSON, the salvage step extracts the greedy span from the
first opening brace to the last closing brace; for an object surrounded
by noise whose leading part contains no opening brace and whose trailing
part contains no closing brace, that span is exactly the object and the
parse succeeds with its value.  Noise containing further braces can
instead make the operation fail (see the counterexample), and the
conversation path applies no salvage. -/
theorem C6_salvage_noise (pre mid post : List Char) (v : Json)
    (hpre : ∀ c ∈ pre, c ≠ '{')
    (hpost : ∀ c ∈ post, c ≠ '}')
    (hs : jsonParseChars ('{' :: mid ++ ['}']) = some v)
    (hfail : jsonParseChars (pre ++ ('{' :: mid ++ ['}']) ++ post) = none) :
    parseOrderDataChars (pre ++ ('{' :: mid ++ ['}']) ++ post) = some v := by
  unfold parseOrderDataChars
  simp only [hfail, extractBraceSpan_noise pre mid post hpre hpost]
  exact hs

/-- C6 witness: the spec example -- an ask_size reply object wrapped in
Sure!/thanks noise -- is salvaged and parses to the embedded object. -/
theorem C6_witness :
    jsonParseChars ('{' :: ("\"reply\":\"ok\",\"action\":\"ask_size\"").data ++ ['}'])
      = some (.obj [(("reply"), .str ("ok")), (("action"), .str ("ask_size"))])
    ∧ jsonParseChars (("Sure! ").data
        ++ ('{' :: ("\"reply\":\"ok\",\"action\":\"ask_size\"").data ++ ['}'])
        ++ (" thanks").data) = none
    ∧ parseOrderDataChars (("Sure! ").data
        ++ ('{' :: ("\"reply\":\"ok\",\"action\":\"ask_size\"").data ++ ['}'])
        ++ (" thanks").data)
      = some (.obj [(("reply"), .str ("ok")), (("action"), .str ("ask_size"))]) :=
  ⟨rfl, rfl,
   C6_salvage_noise (("Sure! ").data) (("\"reply\":\"ok\",\"action\":\"ask_size\"").data)
     ((" thanks").data)
     (.obj [(("reply"), .str ("ok")), (("action"), .str ("ask_size"))])
     (by decide) (by decide) rfl rfl⟩

/-- C6 counterexample: the regex span is greedy, from the first opening
brace to the last closing brace, not the first balanced span: with a
closing brace in the trailing noise the greedy span is not valid JSON and
the operation fails, although the first balanced span parses fine. -/
theorem C6_counterexample :
    parseOrderData ("ok \x7b\"a\":1\x7d done\x7d") = none
    ∧ jsonParse ("\x7b\"a\":1\x7d") = some (.obj [(("a"), .num ⟨1, 0⟩)]) :=
  ⟨rfl, rfl⟩

end VoiceCashier
